import Mathlib

/-!
Verification of the iiko API client library.

Shallow embedding, in Lean 4, of the pure/deterministic parts of the
`Food_project` repository (a Python client for a restaurant-management
REST API), together with proofs of the behavioural properties stated in
its specification.

Embedding conventions:
* JSON values that occur in report payloads are modelled by `JVal`
  (`null` for Python `None`, `num` for int/float values, `str` for
  strings); numeric addition is modelled on `Int`.
* Python `dict`s appearing as records are modelled by association lists
  in insertion order.
* Python `datetime` values are modelled as a count of seconds since the
  proleptic-Gregorian epoch 0001-01-01 00:00, which is a Monday (exactly
  as `datetime.toordinal` is laid out), so `weekday` is a plain modulus.
* Fallible code is modelled with `Option`/`Except`; external library
  parsers (`json.loads`, `ElementTree.fromstring`) are oracle parameters.
-/

/-! ## Python string primitives

Lean's built-in `String` operations are implemented on byte positions and do
not reduce definitionally, so the Python string methods the source uses are
modelled directly on the character list underlying a `String`. -/

/-- The characters Python `str.strip()` removes (ASCII whitespace). -/
def pyIsSpace (c : Char) : Bool := c.isWhitespace || c = '\x0b' || c = '\x0c'

/-- Python `s.strip()`. -/
def pyStrip (s : String) : String :=
  (((s.data.dropWhile pyIsSpace).reverse.dropWhile pyIsSpace).reverse).asString

/-- Python `s.startswith(p)`. -/
def pyStartsWith (s p : String) : Bool := p.data.isPrefixOf s.data

/-- Python `s.lower()` (ASCII letters, which is all the code relies on). -/
def pyLower (s : String) : String := (s.data.map Char.toLower).asString

/-- Whether `needle` occurs as a contiguous substring of the character list. -/
def pyContainsAux (needle : List Char) : List Char → Bool
  | [] => needle.isEmpty
  | c :: rest => needle.isPrefixOf (c :: rest) || pyContainsAux needle rest

/-- Python `needle in hay` on strings. -/
def pyContains (hay needle : String) : Bool := pyContainsAux needle.data hay.data

/-- Python `s[:n]`. -/
def pySlice (s : String) (n : Nat) : String := (s.data.take n).asString

/-- Python `s[1:]`. -/
def pyDropOne (s : String) : String := (s.data.drop 1).asString

/-- A JSON scalar value as it occurs in OLAP report payloads:
`null` models Python `None`, `num` models a number (int/float),
`str` models any non-numeric, non-null value (strings in practice). -/
inductive JVal where
  | null : JVal
  | num : Int → JVal
  | str : String → JVal
deriving DecidableEq, Repr

/-- `add_summary_arrays` from `example_sales_report.py`: element-wise sum of
two summary/totals arrays.  `none` models a `None` array; positions past the
shorter array are read as `None` (`a[i] if i < len(a) else None`); two numbers
are added, a `None` position yields the other value, and any other combination
keeps the first array's value. -/
def add_summary_arrays (a b : Option (List JVal)) : Option (List JVal) :=
  match a, b with
  | none, b => b
  | some a, none => some a
  | some a, some b =>
    let n := max a.length b.length
    some <| (List.range n).map fun i =>
      let av := a.getD i JVal.null
      let bv := b.getD i JVal.null
      match av, bv with
      | JVal.null, bv => bv
      | av, JVal.null => av
      | JVal.num x, JVal.num y => JVal.num (x + y)
      | av, _ => av

/-! ## Datetime model and week-chunking (`example_sales_report.py`) -/

/-- Seconds per day. -/
def secPerDay : Nat := 86400

/-- Seconds per week. -/
def secPerWeek : Nat := 7 * secPerDay

/-- `dt.replace(hour=0, minute=0, second=0, microsecond=0)`: floor a datetime
(seconds since Monday 0001-01-01 00:00) to midnight. -/
def floorToMidnight (dt : Nat) : Nat := dt - dt % secPerDay

/-- `dt.weekday()`: 0 = Monday … 6 = Sunday.  The epoch day 0001-01-01 is a
Monday in the proleptic Gregorian calendar used by Python `datetime`. -/
def pyWeekday (dt : Nat) : Nat := dt / secPerDay % 7

/-- `next_monday_00` from `example_sales_report.py`:
`dt0 = dt.replace(hour=0,...)`; `monday_this = dt0 - timedelta(days=dt0.weekday())`;
`monday_next = monday_this + timedelta(days=7)`;
`return monday_next if dt0 >= monday_this else monday_this`. -/
def next_monday_00 (dt : Nat) : Nat :=
  let dt0 := floorToMidnight dt
  let monday_this := dt0 - pyWeekday dt0 * secPerDay
  let monday_next := monday_this + 7 * secPerDay
  if monday_this ≤ dt0 then monday_next else monday_this

/-- The `while cur < dt_to` loop of `main` in `example_sales_report.py`,
returning the list of `(cur, week_end)` windows it issues requests for:
`week_end = min(next_monday_00(cur), dt_to)`, then `cur = week_end`. -/
def chunkWindows (cur to_ : Nat) : List (Nat × Nat) :=
  if h : cur < to_ then
    let week_end := min (next_monday_00 cur) to_
    (cur, week_end) :: chunkWindows week_end to_
  else
    []
termination_by to_ - cur
decreasing_by
  have hlt : cur < next_monday_00 cur := by
    unfold next_monday_00 floorToMidnight pyWeekday secPerDay
    simp only []
    split
    · omega
    · omega
  have hmin : cur < min (next_monday_00 cur) to_ := lt_min hlt h
  omega

/-- `merged_raw["data"].extend(raw.get("data", []))` iterated over the chunk
list in order, starting from the empty list. -/
def mergeRows (chunks : List (List (List JVal))) : List (List JVal) :=
  chunks.foldl (fun acc d => acc ++ d) []

/-! ## `build_report_v2` (`src/reports/olap.py`) -/

/-- The parts of the parsed JSON response body that `build_report_v2` reads:
`data.get("data", [])` (used only by the commented-out line), and the
optional `summary` / `totals` arrays. -/
structure OLAPPayload where
  data : List (List JVal)
  summary : Option (List JVal)
  totals : Option (List JVal)
deriving DecidableEq, Repr

/-- The `OLAPReport` dataclass as `build_report_v2` actually populates it.
The dataclass annotates `rows: List[List[Any]]`, but the constructor call
receives the list built by `rows.extend(aggregate_fields)`, i.e. a list of
aggregate field *names*; the `rows = data.get("data", [])` line is commented
out in the source, so at runtime `rows` holds strings. -/
structure OLAPReportV2 where
  columns : List String
  rows : List String
  summary : Option (List (String × JVal))
deriving DecidableEq, Repr

/-- Python truthiness of an optional list: `None` and `[]` are falsy. -/
def listTruthy (a : Option (List JVal)) : Bool :=
  match a with
  | none => false
  | some l => !l.isEmpty

/-- Python `x or y` on two optional summary arrays:
`data.get("summary") or data.get("totals")`. -/
def pyOrList (a b : Option (List JVal)) : Option (List JVal) :=
  if listTruthy a then a else b

/-- The response-shaping part of `build_report_v2`
(`src/reports/olap.py`, lines 291–318), starting from the parsed response
body `p` and the (`or []`-normalised) `group_by_row_fields` and
`aggregate_fields` arguments.  `columns` receives only the grouping fields
and `rows` receives the aggregate field names, exactly as the code does;
the summary dict is built positionally at offset `len(group_by_row_fields)`.
Indexing `raw_summary[offset + i]` out of range raises `IndexError`, which
is modelled by `Except.error`. -/
def build_report_v2_shape (group_by_row_fields aggregate_fields : List String)
    (p : OLAPPayload) : Except Unit OLAPReportV2 := do
  let columns : List String := [] ++ group_by_row_fields
  let rows : List String := [] ++ aggregate_fields
  let raw_summary := pyOrList p.summary p.totals
  let summary_dict : Option (List (String × JVal)) ←
    if listTruthy raw_summary ∧ aggregate_fields ≠ [] then do
      let l := raw_summary.getD []
      let offset := group_by_row_fields.length
      let pairs ← (List.range aggregate_fields.length).mapM fun i =>
        match l[offset + i]? with
        | some v => Except.ok (aggregate_fields.getD i "", v)
        | none => Except.error ()
      pure (some pairs)
    else
      pure none
  pure ⟨columns, rows, summary_dict⟩

/-! ## Token storage and the session manager (`src/auth/auth_manager.py`) -/

/-- A full JSON value, as produced by `json.load` on the token-storage file.
Objects are association lists in key order with duplicate keys already
collapsed (Python's `json.load` keeps the last occurrence). -/
inductive PyVal where
  | null : PyVal
  | bool : Bool → PyVal
  | num : Int → PyVal
  | str : String → PyVal
  | arr : List PyVal → PyVal
  | obj : List (String × PyVal) → PyVal

/-- Python truthiness of a JSON value. -/
def pyTruthy : PyVal → Bool
  | PyVal.null => false
  | PyVal.bool b => b
  | PyVal.num n => n ≠ 0
  | PyVal.str s => s ≠ ""
  | PyVal.arr l => !l.isEmpty
  | PyVal.obj l => !l.isEmpty

/-- `dict.get(key)` on a parsed JSON object: `None` when the key is absent. -/
def dictGet (kvs : List (String × PyVal)) (key : String) : PyVal :=
  match kvs.find? (fun kv => kv.1 = key) with
  | some kv => kv.2
  | none => PyVal.null

/-- What reading and JSON-parsing the token-storage file can observe:
the file is missing, opening/reading it raises `OSError`, `json.load`
raises `JSONDecodeError`, or parsing succeeds with some JSON value. -/
inductive StorageFile where
  | missing : StorageFile
  | ioError : StorageFile
  | parseError : StorageFile
  | parsed : PyVal → StorageFile

/-- The Python exception kinds the embedded fragments can raise. -/
inductive PyError where
  | attributeError : PyError
  | requestException : PyError
  | valueError : String → PyError
deriving DecidableEq, Repr

/-- `TokenStorage.load` (`src/auth/auth_manager.py`, lines 53–80).
Missing file → `None`; `OSError` / `json.JSONDecodeError` during
open-and-parse are caught → `None`; otherwise `data.get("token")` is
returned when truthy, else `None`.  When the parsed JSON value is not an
object, `data.get` raises `AttributeError`, which is *not* in the caught
exception tuple, so it propagates (modelled by `Except.error`). -/
def TokenStorage.load (file : StorageFile) : Except PyError (Option PyVal) :=
  match file with
  | StorageFile.missing => Except.ok none
  | StorageFile.ioError => Except.ok none
  | StorageFile.parseError => Except.ok none
  | StorageFile.parsed v =>
    match v with
    | PyVal.obj kvs =>
      let token := dictGet kvs "token"
      if pyTruthy token then Except.ok (some token) else Except.ok none
    | _ => Except.error PyError.attributeError

/-- Mutable state of an `AuthManager`: the in-memory `_token` and the token
held by the persisted storage file (`none` = no stored token). -/
structure AuthState where
  token : Option String
  stored : Option String
deriving DecidableEq, Repr

/-- Python truthiness of `self._token` (`None` and `""` are falsy). -/
def tokenTruthy : Option String → Bool
  | none => false
  | some t => t ≠ ""

/-- Outcome of the `POST {base}/auth` network call made by `authenticate`:
either `requests` raises a `RequestException` (connection error, timeout, or
non-2xx via `raise_for_status`), or an HTTP response body is received. -/
inductive LoginOutcome where
  | failure : LoginOutcome
  | response : String → LoginOutcome
deriving DecidableEq, Repr

/-- `AuthManager.authenticate` (`src/auth/auth_manager.py`, lines 149–197).
Returns the result (token or raised exception), the state after the call,
and the number of network login calls issued.  `saveOk` is whether
`TokenStorage.save` succeeds (an `OSError` there is caught and only
logged, leaving the stored token unchanged). -/
def AuthManager.authenticate (s : AuthState) (force : Bool) (net : LoginOutcome)
    (saveOk : Bool) : Except PyError String × AuthState × Nat :=
  if tokenTruthy s.token ∧ ¬force then
    (Except.ok (s.token.getD ""), s, 0)
  else
    match net with
    | LoginOutcome.failure => (Except.error PyError.requestException, s, 1)
    | LoginOutcome.response text =>
      let token := pyStrip text
      if token = "" then
        (Except.error (PyError.valueError "Получен пустой токен от сервера"), s, 1)
      else
        (Except.ok token,
         { token := some token,
           stored := if saveOk then some token else s.stored }, 1)

/-- Outcome of the `GET {base}/logout` network call. -/
inductive LogoutOutcome where
  | failure : LogoutOutcome
  | success : LogoutOutcome
deriving DecidableEq, Repr

/-- `AuthManager.logout` (`src/auth/auth_manager.py`, lines 199–224).
Returns the state after the call and the number of network calls issued.
If `_token` is falsy the method returns at once.  Otherwise the logout call
is attempted, a `RequestException` from it is caught and logged, and the
`finally` block sets `_token = None` and calls `storage.clear()` whatever
the outcome `net` was; `clearOk` is whether the storage file unlink
succeeds (an `OSError` there is caught and only logged). -/
def AuthManager.logout (s : AuthState) (net : LogoutOutcome) (clearOk : Bool) :
    AuthState × Nat :=
  if ¬tokenTruthy s.token then
    (s, 0)
  else
    ({ token := none, stored := if clearOk then none else s.stored }, 1)

/-! ## Transport pacing (`src/client/http_client.py`) -/

/-- The wall clock as `HTTPClient` observes it: the current `time.time()`
value and the `_last_request_time` attribute.  `time.sleep(d)` is modelled
as advancing `now` by exactly `d`. -/
structure ClockState where
  now : ℚ
  lastRequestTime : Option ℚ
deriving DecidableEq

/-- The hard-coded minimum delay between requests, 100 ms (`min_delay = 0.1`
in `_ensure_sequential_requests`). -/
def min_delay : ℚ := 1 / 10

/-- `HTTPClient._ensure_sequential_requests` (lines 64–76): when a previous
request time is recorded and less than `min_delay` has elapsed, sleep for
the remainder. -/
def ensure_sequential_requests (s : ClockState) : ClockState :=
  match s.lastRequestTime with
  | none => s
  | some t =>
    let elapsed := s.now - t
    if elapsed < min_delay then
      { s with now := s.now + (min_delay - elapsed) }
    else
      s

/-- One call to `HTTPClient.request` (lines 78–141) as it acts on the clock:
`duration` is the wall-clock time the attempt takes (connection, response,
`raise_for_status`) and `ok` is whether it returns normally or raises.
The method first runs `_ensure_sequential_requests`, then performs the
attempt; the `finally` block records `_last_request_time = time.time()`
whether or not the attempt raised.  Returns the new clock state, the time
at which the HTTP send started, and the outcome. -/
def HTTPClient.request (s : ClockState) (duration : ℚ) (ok : Bool) :
    ClockState × ℚ × Bool :=
  let s1 := ensure_sequential_requests s
  let start := s1.now
  let endTime := start + duration
  ({ now := endTime, lastRequestTime := some endTime }, start, ok)

/-! ## Column-catalog parsing (`src/reports/olap.py`, lines 86–188) -/

/-- Which of the two parse paths failed; the raised `ValueError` messages
are distinct ("Не удалось распарсить JSON ответ…" vs "…XML ответ…"). -/
inductive ParseKind where
  | json : ParseKind
  | xml : ParseKind
deriving DecidableEq, Repr

/-- A parse failure as the code surfaces it: a `ValueError` of the given
kind is raised, and the accompanying `logger.error` diagnostic carries the
first 500 characters of the offending text. -/
structure ParseFailure where
  kind : ParseKind
  snippet : String
deriving DecidableEq, Repr

/-- The fields of one JSON column-info object that `_parse_columns_json`
reads via `col_info.get(...)`; `none` models an absent key. -/
structure ColInfo where
  name : Option String
  type : Option String
  aggregationAllowed : Option Bool
  groupingAllowed : Option Bool
  filteringAllowed : Option Bool
  tags : Option (List String)
deriving DecidableEq, Repr

/-- Python `str()` of a boolean. -/
def pyBoolStr (b : Bool) : String := if b then "True" else "False"

/-- A column descriptor dict, as an association list in insertion order. -/
abbrev ColumnDescriptor := List (String × String)

/-- `_parse_columns_json` (lines 103–140).  The external `json.loads` is an
oracle parameter: `none` models a `json.JSONDecodeError`, `some data` a
successful parse of the catalog object `{columnName: {name, type, ...}}`.
On parse failure the code logs `repr(json_text[:500])` and raises a
JSON-specific `ValueError`. -/
def parse_columns_json
    (jsonLoads : String → Option (List (String × ColInfo)))
    (json_text : String) : Except ParseFailure (List ColumnDescriptor) :=
  match jsonLoads json_text with
  | none => Except.error ⟨ParseKind.json, pySlice json_text 500⟩
  | some data =>
    Except.ok <| data.map fun ci =>
      let col_key := ci.1
      let col_info := ci.2
      let col_data : ColumnDescriptor :=
        [("id", col_key),
         ("name", col_info.name.getD col_key),
         ("caption", col_info.name.getD ""),
         ("type", col_info.type.getD ""),
         ("aggregationAllowed", pyBoolStr (col_info.aggregationAllowed.getD false)),
         ("groupingAllowed", pyBoolStr (col_info.groupingAllowed.getD false)),
         ("filteringAllowed", pyBoolStr (col_info.filteringAllowed.getD false))]
      match col_info.tags with
      | some ts => col_data ++ [("tags", String.intercalate ", " ts)]
      | none => col_data

/-- An XML `column` element: its attribute dict in document order. -/
structure XmlColumn where
  attrib : List (String × String)
deriving DecidableEq, Repr

/-- `column.get(key, default)` on an XML element. -/
def XmlColumn.get (c : XmlColumn) (key default_ : String) : String :=
  match c.attrib.find? (fun kv => kv.1 = key) with
  | some kv => kv.2
  | none => default_

/-- `_parse_columns_xml` (lines 142–188).  The external
`ElementTree.fromstring` plus `root.findall(".//column")` is an oracle
parameter: `none` models an `ET.ParseError`, `some cols` the list of
`column` elements found.  A leading BOM is dropped, the text is stripped,
a stripped-empty text returns `[]` (with only a warning logged), and on
parse failure the code logs `repr(xml_text[:500])` and raises an
XML-specific `ValueError`. -/
def parse_columns_xml
    (xmlParse : String → Option (List XmlColumn))
    (xml_text0 : String) : Except ParseFailure (List ColumnDescriptor) :=
  let xml_text1 := if pyStartsWith xml_text0 "\uFEFF" then pyDropOne xml_text0 else xml_text0
  let xml_text := pyStrip xml_text1
  if xml_text = "" then
    Except.ok []
  else
    match xmlParse xml_text with
    | none => Except.error ⟨ParseKind.xml, pySlice xml_text 500⟩
    | some cols =>
      Except.ok <| cols.map fun column =>
        let col_data : ColumnDescriptor :=
          [("name", column.get "name" ""),
           ("caption", column.get "caption" ""),
           ("type", column.get "type" "")]
        col_data ++ column.attrib.filter
          (fun kv => ¬(kv.1 = "name" ∨ kv.1 = "caption" ∨ kv.1 = "type"))

/-- `_parse_columns` (lines 86–101): format detection — JSON when the
Content-Type header contains "json" (case-insensitively) or the stripped
body starts with `{`, XML otherwise — then dispatch. -/
def parse_columns
    (jsonLoads : String → Option (List (String × ColInfo)))
    (xmlParse : String → Option (List XmlColumn))
    (content content_type : String) : Except ParseFailure (List ColumnDescriptor) :=
  if pyContains (pyLower content_type) "json" || pyStartsWith (pyStrip content) "\x7b" then
    parse_columns_json jsonLoads content
  else
    parse_columns_xml xmlParse content

/-! ## Helper lemmas -/

/-- The merged element produced at one position of `add_summary_arrays`. -/
def mergeElem (av bv : JVal) : JVal :=
  match av, bv with
  | JVal.null, bv => bv
  | av, JVal.null => av
  | JVal.num x, JVal.num y => JVal.num (x + y)
  | av, _ => av

lemma add_summary_arrays_some_some (a b : List JVal) :
    add_summary_arrays (some a) (some b) =
      some ((List.range (max a.length b.length)).map fun i =>
        mergeElem (a.getD i JVal.null) (b.getD i JVal.null)) := rfl

lemma add_summary_arrays_getD (a b : List JVal) (i : Nat)
    (h : i < max a.length b.length) :
    ((add_summary_arrays (some a) (some b)).getD []).getD i JVal.null =
      mergeElem (a.getD i JVal.null) (b.getD i JVal.null) := by
  rw [add_summary_arrays_some_some, Option.getD_some,
    List.getD_eq_getElem _ _ (by simpa using h)]
  simp

lemma next_monday_00_eq (dt : Nat) :
    next_monday_00 dt = secPerWeek * (dt / secPerWeek) + secPerWeek := by
  unfold next_monday_00 floorToMidnight pyWeekday secPerWeek secPerDay
  simp only []
  split
  · omega
  · omega

lemma next_monday_00_mod (dt : Nat) : next_monday_00 dt % secPerWeek = 0 := by
  rw [next_monday_00_eq]
  unfold secPerWeek secPerDay
  omega

lemma lt_next_monday_00 (dt : Nat) : dt < next_monday_00 dt := by
  rw [next_monday_00_eq]
  unfold secPerWeek secPerDay
  omega

lemma next_monday_00_le (dt : Nat) : next_monday_00 dt ≤ dt + secPerWeek := by
  rw [next_monday_00_eq]
  unfold secPerWeek secPerDay
  omega

lemma chunkWindows_pos {cur to_ : Nat} (h : cur < to_) :
    chunkWindows cur to_ =
      (cur, min (next_monday_00 cur) to_)
        :: chunkWindows (min (next_monday_00 cur) to_) to_ := by
  rw [chunkWindows]
  simp [h]

lemma chunkWindows_neg {cur to_ : Nat} (h : ¬cur < to_) :
    chunkWindows cur to_ = [] := by
  rw [chunkWindows]
  simp [h]

lemma chunkWindows_spec :
    ∀ (fuel cur to_ : Nat), to_ - cur ≤ fuel →
      ((((chunkWindows cur to_).map fun w => List.range' w.1 (w.2 - w.1)).flatten
          = List.range' cur (to_ - cur)) ∧
       (chunkWindows cur to_).Chain' (fun w1 w2 => w1.2 = w2.1 ∧ w1.2 % secPerWeek = 0) ∧
       (∀ w ∈ chunkWindows cur to_, cur ≤ w.1 ∧ w.1 < w.2 ∧ w.2 ≤ to_) ∧
       (cur < to_ →
         (chunkWindows cur to_).head?.map Prod.fst = some cur ∧
         (chunkWindows cur to_).getLast?.map Prod.snd = some to_)) := by
  intro fuel
  induction fuel with
  | zero =>
    intro cur to_ hf
    have h : ¬cur < to_ := by omega
    rw [chunkWindows_neg h]
    have h0 : to_ - cur = 0 := by omega
    refine ⟨by simp [h0], by simp, by simp, by omega⟩
  | succ n ih =>
    intro cur to_ hf
    by_cases h : cur < to_
    · have hcw : cur < min (next_monday_00 cur) to_ :=
        lt_min (lt_next_monday_00 cur) h
      have hwt : min (next_monday_00 cur) to_ ≤ to_ := min_le_right _ _
      obtain ⟨ihflat, ihchain, ihmem, ihends⟩ :=
        ih (min (next_monday_00 cur) to_) to_ (by omega)
      rw [chunkWindows_pos h]
      refine ⟨?_, ?_, ?_, ?_⟩
      · simp only [List.map_cons, List.flatten_cons]
        rw [ihflat]
        have happ := List.range'_append cur (min (next_monday_00 cur) to_ - cur)
          (to_ - min (next_monday_00 cur) to_) 1
        have h1 : cur + 1 * (min (next_monday_00 cur) to_ - cur)
            = min (next_monday_00 cur) to_ := by omega
        have h2 : to_ - min (next_monday_00 cur) to_
            + (min (next_monday_00 cur) to_ - cur) = to_ - cur := by omega
        rw [h1, h2] at happ
        simpa using happ
      · rw [List.chain'_cons']
        refine ⟨?_, ihchain⟩
        intro b hb
        have hlt2 : min (next_monday_00 cur) to_ < to_ := by
          by_contra hge
          rw [chunkWindows_neg hge] at hb
          simp at hb
        obtain ⟨hhead, _⟩ := ihends hlt2
        rw [hb] at hhead
        have hb1 : min (next_monday_00 cur) to_ = b.1 := by
          simpa using hhead.symm
        have hnm : next_monday_00 cur < to_ := by
          rcases le_or_lt (next_monday_00 cur) to_ with h' | h'
          · omega
          · omega
        have hwe2 : min (next_monday_00 cur) to_ = next_monday_00 cur :=
          min_eq_left (le_of_lt hnm)
        refine ⟨hb1, ?_⟩
        rw [hwe2]
        exact next_monday_00_mod cur
      · intro w hw
        rcases List.mem_cons.mp hw with hw | hw
        · subst hw
          exact ⟨le_refl _, hcw, hwt⟩
        · have := ihmem w hw
          exact ⟨le_trans (le_of_lt hcw) this.1, this.2.1, this.2.2⟩
      · intro _
        refine ⟨by simp, ?_⟩
        cases hrest : chunkWindows (min (next_monday_00 cur) to_) to_ with
        | nil =>
          have : ¬min (next_monday_00 cur) to_ < to_ := by
            intro hlt2
            obtain ⟨hhead, _⟩ := ihends hlt2
            rw [hrest] at hhead
            simp at hhead
          have heq : min (next_monday_00 cur) to_ = to_ := by omega
          simp [heq]
        | cons w ws =>
          have hlt2 : min (next_monday_00 cur) to_ < to_ := by
            by_contra hge
            rw [chunkWindows_neg hge] at hrest
            simp at hrest
          obtain ⟨_, hlast⟩ := ihends hlt2
          rw [hrest] at hlast
          rw [List.getLast?_cons_cons]
          exact hlast
    · rw [chunkWindows_neg h]
      have h0 : to_ - cur = 0 := by omega
      refine ⟨by simp [h0], by simp, by simp, by omega⟩

lemma foldl_append_eq (chunks : List (List (List JVal))) :
    ∀ acc : List (List JVal),
      chunks.foldl (fun acc d => acc ++ d) acc = acc ++ chunks.flatten := by
  induction chunks with
  | nil => intro acc; simp
  | cons c cs ih =>
    intro acc
    simp only [List.foldl_cons, List.flatten_cons, ih, List.append_assoc]

lemma mergeRows_eq_flatten (chunks : List (List (List JVal))) :
    mergeRows chunks = chunks.flatten := by
  unfold mergeRows
  simpa using foldl_append_eq chunks []

/-- C2: For every `start < end`, the chunking loop of
`example_sales_report.py` produces windows that exactly partition
`[start, end)` in order with no gaps and no overlaps (their half-open
ranges concatenate to the range of the whole interval), every window is
non-empty and lies inside `[start, end]`, the first window starts at
`start`, the last window ends at `end`, each intermediate boundary is a
Monday 00:00 shared by the two adjacent windows, `next_monday_00` always
returns a Monday 00:00 strictly after its argument and at most 7 days
later, and the merged row list is the chunk-order concatenation of the
chunks' `data` rows, so its length is the sum of the per-chunk row
counts.  (The loop terminates: `chunkWindows` is a total function.) -/
theorem C2_chunk_partition (s e : Nat) (h : s < e) :
    (∀ dt : Nat, next_monday_00 dt % secPerWeek = 0 ∧ dt < next_monday_00 dt ∧
        next_monday_00 dt ≤ dt + secPerWeek) ∧
    (((chunkWindows s e).map fun w => List.range' w.1 (w.2 - w.1)).flatten
        = List.range' s (e - s)) ∧
    (chunkWindows s e).Chain' (fun w1 w2 => w1.2 = w2.1 ∧ w1.2 % secPerWeek = 0) ∧
    (∀ w ∈ chunkWindows s e, s ≤ w.1 ∧ w.1 < w.2 ∧ w.2 ≤ e) ∧
    (chunkWindows s e).head?.map Prod.fst = some s ∧
    (chunkWindows s e).getLast?.map Prod.snd = some e ∧
    (∀ chunks : List (List (List JVal)),
      mergeRows chunks = chunks.flatten ∧
      (mergeRows chunks).length = (chunks.map List.length).sum) := by
  obtain ⟨hflat, hchain, hmem, hends⟩ := chunkWindows_spec (e - s) s e (le_refl _)
  obtain ⟨hh, hl⟩ := hends h
  refine ⟨fun dt => ⟨next_monday_00_mod dt, lt_next_monday_00 dt, next_monday_00_le dt⟩,
    hflat, hchain, hmem, hh, hl, fun chunks => ⟨mergeRows_eq_flatten chunks, ?_⟩⟩
  rw [mergeRows_eq_flatten]
  simp [List.length_flatten]

/-- Witness for C2 at a concrete two-window range crossing a Monday
boundary (`604800` is the Monday one week after the epoch Monday). -/
theorem C2_chunk_partition_witness :
    604795 < 604805 ∧
    (((chunkWindows 604795 604805).map fun w => List.range' w.1 (w.2 - w.1)).flatten
        = List.range' 604795 (604805 - 604795)) ∧
    (chunkWindows 604795 604805).getLast?.map Prod.snd = some 604805 :=
  ⟨by decide, (C2_chunk_partition 604795 604805 (by decide)).2.1,
    (C2_chunk_partition 604795 604805 (by decide)).2.2.2.2.2.1⟩

/-- C3: The chunk summary merge `add_summary_arrays` is element-wise:
an absent operand (a `None` array, a `None` entry, or a position past the
shorter array, read as `None`) leaves the other operand's value unchanged;
two present numeric values are summed; when both are present and not both
numeric, the earlier chunk's value is retained; and merging
`[10, None, "x"]` with `[5, 3, "y"]` yields `[15, 3, "x"]`. -/
theorem C3_summary_merge (a b : List JVal) (i : Nat)
    (hi : i < max a.length b.length) :
    (∀ c : Option (List JVal),
      add_summary_arrays none c = c ∧ add_summary_arrays c none = c) ∧
    ((add_summary_arrays (some a) (some b)).getD []).length
        = max a.length b.length ∧
    (a.getD i JVal.null = JVal.null →
      ((add_summary_arrays (some a) (some b)).getD []).getD i JVal.null
        = b.getD i JVal.null) ∧
    (b.getD i JVal.null = JVal.null →
      ((add_summary_arrays (some a) (some b)).getD []).getD i JVal.null
        = a.getD i JVal.null) ∧
    (∀ x y : Int, a.getD i JVal.null = JVal.num x →
      b.getD i JVal.null = JVal.num y →
      ((add_summary_arrays (some a) (some b)).getD []).getD i JVal.null
        = JVal.num (x + y)) ∧
    (a.getD i JVal.null ≠ JVal.null → b.getD i JVal.null ≠ JVal.null →
      (∀ x y : Int,
        ¬(a.getD i JVal.null = JVal.num x ∧ b.getD i JVal.null = JVal.num y)) →
      ((add_summary_arrays (some a) (some b)).getD []).getD i JVal.null
        = a.getD i JVal.null) ∧
    add_summary_arrays (some [JVal.num 10, JVal.null, JVal.str "x"])
      (some [JVal.num 5, JVal.num 3, JVal.str "y"])
      = some [JVal.num 15, JVal.num 3, JVal.str "x"] := by
  refine ⟨?_, ?_, ?_, ?_, ?_, ?_, by decide⟩
  · intro c
    cases c <;> simp [add_summary_arrays]
  · rw [add_summary_arrays_some_some]
    simp
  · intro hav
    rw [add_summary_arrays_getD a b i hi, hav]
    cases b.getD i JVal.null <;> rfl
  · intro hbv
    rw [add_summary_arrays_getD a b i hi, hbv]
    cases hav : a.getD i JVal.null <;> rfl
  · intro x y hx hy
    rw [add_summary_arrays_getD a b i hi, hx, hy]
    rfl
  · intro ha hb hnn
    rw [add_summary_arrays_getD a b i hi]
    cases hav : a.getD i JVal.null with
    | null => exact absurd hav ha
    | num x =>
      cases hbv : b.getD i JVal.null with
      | null => exact absurd hbv hb
      | num y => exact absurd ⟨hav, hbv⟩ (hnn x y)
      | str t => rfl
    | str t =>
      cases hbv : b.getD i JVal.null with
      | null => exact absurd hbv hb
      | num y => rfl
      | str u => rfl

/-- Witness for C3 at the specification's concrete example. -/
theorem C3_summary_merge_witness :
    0 < max ([JVal.num 10, JVal.null, JVal.str "x"] : List JVal).length
        ([JVal.num 5, JVal.num 3, JVal.str "y"] : List JVal).length ∧
    add_summary_arrays (some [JVal.num 10, JVal.null, JVal.str "x"])
      (some [JVal.num 5, JVal.num 3, JVal.str "y"])
      = some [JVal.num 15, JVal.num 3, JVal.str "x"] :=
  ⟨by decide, (C3_summary_merge [JVal.num 10, JVal.null, JVal.str "x"]
      [JVal.num 5, JVal.num 3, JVal.str "y"] 0 (by decide)).2.2.2.2.2.2⟩

/-- C1: Evaluation of `build_report_v2`'s result shaping at a concrete
parsed payload: with grouping fields `["Dept"]`, aggregate fields
`["Sum"]` and a payload whose `data` array holds the row
`["d1", 5]`, the returned report has `columns = ["Dept"]` — not the
grouping fields followed by the aggregate fields — and `rows = ["Sum"]`,
the aggregate field *names*, not the payload's `data` rows (the
`rows = data.get("data", [])` line is commented out in the source). -/
theorem C1_build_report_v2_shape_eval :
    build_report_v2_shape ["Dept"] ["Sum"]
        ⟨[[JVal.str "d1", JVal.num 5]], none, none⟩
      = Except.ok ⟨["Dept"], ["Sum"], none⟩ ∧
    (["Dept"] : List String) ≠ ["Dept", "Sum"] := by
  constructor
  · rfl
  · decide

lemma mapM_except_ok {α β : Type} (f : α → Except Unit β) (g : α → β) :
    ∀ l : List α, (∀ x ∈ l, f x = Except.ok (g x)) →
      l.mapM f = Except.ok (l.map g) := by
  intro l
  induction l with
  | nil => intro _; rfl
  | cons x xs ih =>
    intro hx
    rw [List.mapM_cons, hx x (List.mem_cons_self x xs),
      ih fun y hy => hx y (List.mem_cons_of_mem x hy)]
    rfl

/-- C4: Whenever the response's `summary`/`totals` array (after the
`summary or totals` fallback) is present and non-empty, the aggregate
field list is non-empty, and the array is long enough for the slice, the
summary mapping built by `build_report_v2` sends the `i`-th aggregate
field to the totals element at index `len(group_by_row_fields) + i`. -/
theorem C4_summary_offset (G A : List String) (p : OLAPPayload) (l : List JVal)
    (hl : pyOrList p.summary p.totals = some l) (hne : l.isEmpty = false)
    (hA : A ≠ []) (hlen : G.length + A.length ≤ l.length) :
    build_report_v2_shape G A p =
      Except.ok ⟨G, A, some ((List.range A.length).map fun i =>
        (A.getD i "", l.getD (G.length + i) JVal.null))⟩ := by
  unfold build_report_v2_shape
  rw [hl]
  have hcond : listTruthy (some l) ∧ A ≠ [] := by
    refine ⟨?_, hA⟩
    simp [listTruthy, hne]
  rw [if_pos hcond]
  have hmap := mapM_except_ok
    (fun i => match l[G.length + i]? with
      | some v => Except.ok (A.getD i "", v)
      | none => Except.error ())
    (fun i => (A.getD i "", l.getD (G.length + i) JVal.null))
    (List.range A.length) ?_
  · simp only [Option.getD_some]
    rw [hmap]
    rfl
  · intro i hi
    rw [List.mem_range] at hi
    have hib : G.length + i < l.length := by omega
    simp only [List.getElem?_eq_getElem hib]
    rw [List.getD_eq_getElem l JVal.null hib]

/-- Witness for C4 at the specification's concrete example: grouping
`["Dept"]`, aggregates `["Sum", "Count"]`, raw totals
`["AllDepts", 123, 45]` give the mapping `{"Sum": 123, "Count": 45}`. -/
theorem C4_summary_offset_witness :
    pyOrList none (some [JVal.str "AllDepts", JVal.num 123, JVal.num 45])
      = some [JVal.str "AllDepts", JVal.num 123, JVal.num 45] ∧
    build_report_v2_shape ["Dept"] ["Sum", "Count"]
        ⟨[], none, some [JVal.str "AllDepts", JVal.num 123, JVal.num 45]⟩
      = Except.ok ⟨["Dept"], ["Sum", "Count"],
          some [("Sum", JVal.num 123), ("Count", JVal.num 45)]⟩ := by
  refine ⟨rfl, ?_⟩
  rw [C4_summary_offset ["Dept"] ["Sum", "Count"]
    ⟨[], none, some [JVal.str "AllDepts", JVal.num 123, JVal.num 45]⟩
    [JVal.str "AllDepts", JVal.num 123, JVal.num 45] rfl rfl (by decide) (by decide)]
  rfl

lemma ensure_start_ge (e gap : ℚ) :
    e + min_delay ≤ (ensure_sequential_requests ⟨e + gap, some e⟩).now := by
  unfold ensure_sequential_requests
  simp only []
  split
  · dsimp only
    linarith
  · rename_i hge
    rw [not_lt] at hge
    dsimp only
    linarith

/-- C5: For two consecutive calls to `HTTPClient.request` on one
client, with any non-negative caller delay `gap` between them: the first
call records `_last_request_time` equal to the time at which its attempt
ended, whatever its outcome (the recording state update does not depend
on the `ok` flag at all), and the second call's HTTP send starts at least
`min_delay` (100 ms) after that recorded end time. -/
theorem C5_transport_pacing (s : ClockState) (d1 d2 gap : ℚ) (ok1 ok2 : Bool)
    (hgap : 0 ≤ gap) :
    (HTTPClient.request s d1 ok1).1.lastRequestTime
        = some (HTTPClient.request s d1 ok1).1.now ∧
    (HTTPClient.request s d1 true).1 = (HTTPClient.request s d1 false).1 ∧
    (HTTPClient.request s d1 ok1).1.now + min_delay ≤
      (HTTPClient.request
        ⟨(HTTPClient.request s d1 ok1).1.now + gap,
         (HTTPClient.request s d1 ok1).1.lastRequestTime⟩ d2 ok2).2.1 := by
  refine ⟨rfl, rfl, ?_⟩
  show (HTTPClient.request s d1 ok1).1.now + min_delay ≤
    (ensure_sequential_requests
      ⟨(HTTPClient.request s d1 ok1).1.now + gap,
       some (HTTPClient.request s d1 ok1).1.now⟩).now
  exact ensure_start_ge (HTTPClient.request s d1 ok1).1.now gap

/-- Witness for C5: a concrete client that has never sent a request, a
1-second first attempt that fails, no caller delay, and a successful
second attempt. -/
theorem C5_transport_pacing_witness :
    (0 : ℚ) ≤ 0 ∧
    (HTTPClient.request ⟨0, none⟩ 1 false).1.lastRequestTime
        = some (HTTPClient.request ⟨0, none⟩ 1 false).1.now ∧
    (HTTPClient.request ⟨0, none⟩ 1 false).1.now + min_delay ≤
      (HTTPClient.request
        ⟨(HTTPClient.request ⟨0, none⟩ 1 false).1.now + 0,
         (HTTPClient.request ⟨0, none⟩ 1 false).1.lastRequestTime⟩ 1 true).2.1 :=
  ⟨le_refl 0, (C5_transport_pacing ⟨0, none⟩ 1 1 0 false true (le_refl 0)).1,
    (C5_transport_pacing ⟨0, none⟩ 1 1 0 false true (le_refl 0)).2.2⟩

/-- C6: `authenticate`: with a (truthy) cached token and `force=False`
the cached token is returned with zero login calls and unchanged state;
`force=True` always issues exactly one login call; starting with no token,
two `force=False` calls issue exactly one login call in total and both
return the same token; and a login response whose body strips to the
empty string raises the empty-token `ValueError` and stores nothing. -/
theorem C6_authenticate_caching (s : AuthState) (text : String)
    (net net2 : LoginOutcome) (saveOk saveOk2 : Bool) :
    (tokenTruthy s.token = true →
      AuthManager.authenticate s false net saveOk
        = (Except.ok (s.token.getD ""), s, 0)) ∧
    ((AuthManager.authenticate s true net saveOk).2.2 = 1) ∧
    (s.token = none → pyStrip text ≠ "" →
      (AuthManager.authenticate s false (LoginOutcome.response text) saveOk).2.2
        + (AuthManager.authenticate
            (AuthManager.authenticate s false (LoginOutcome.response text) saveOk).2.1
            false net2 saveOk2).2.2 = 1 ∧
      (AuthManager.authenticate s false (LoginOutcome.response text) saveOk).1
        = Except.ok (pyStrip text) ∧
      (AuthManager.authenticate
          (AuthManager.authenticate s false (LoginOutcome.response text) saveOk).2.1
          false net2 saveOk2).1 = Except.ok (pyStrip text)) ∧
    (pyStrip text = "" →
      AuthManager.authenticate s true (LoginOutcome.response text) saveOk
        = (Except.error (PyError.valueError "Получен пустой токен от сервера"),
            s, 1)) := by
  refine ⟨?_, ?_, ?_, ?_⟩
  · intro ht
    unfold AuthManager.authenticate
    rw [if_pos ⟨ht, by simp⟩]
  · unfold AuthManager.authenticate
    rw [if_neg (by simp)]
    cases net with
    | failure => rfl
    | response t =>
      simp only []
      split <;> rfl
  · intro hs ht
    have h1 : AuthManager.authenticate s false (LoginOutcome.response text) saveOk
        = (Except.ok (pyStrip text),
            ⟨some (pyStrip text),
             if saveOk then some (pyStrip text) else s.stored⟩, 1) := by
      unfold AuthManager.authenticate
      rw [if_neg (by simp [tokenTruthy, hs])]
      simp only []
      rw [if_neg ht]
    have h2 : AuthManager.authenticate
        ⟨some (pyStrip text),
         if saveOk then some (pyStrip text) else s.stored⟩ false net2 saveOk2
        = (Except.ok (pyStrip text),
            ⟨some (pyStrip text),
             if saveOk then some (pyStrip text) else s.stored⟩, 0) := by
      unfold AuthManager.authenticate
      rw [if_pos ⟨by simpa [tokenTruthy] using ht, by simp⟩]
      rfl
    rw [h1, h2]
    exact ⟨rfl, rfl, rfl⟩
  · intro ht
    unfold AuthManager.authenticate
    rw [if_neg (by simp)]
    simp only []
    rw [if_pos ht]

/-- Witness for C6: a session with no cached token, whose login response
body is `"  tok  "`, authenticated twice back to back. -/
theorem C6_authenticate_caching_witness :
    (⟨none, none⟩ : AuthState).token = none ∧
    pyStrip "  tok  " ≠ "" ∧
    (AuthManager.authenticate ⟨none, none⟩ false
        (LoginOutcome.response "  tok  ") true).2.2
      + (AuthManager.authenticate
          (AuthManager.authenticate ⟨none, none⟩ false
            (LoginOutcome.response "  tok  ") true).2.1
          false LoginOutcome.failure true).2.2 = 1 ∧
    (AuthManager.authenticate
        (AuthManager.authenticate ⟨none, none⟩ false
          (LoginOutcome.response "  tok  ") true).2.1
        false LoginOutcome.failure true).1 = Except.ok (pyStrip "  tok  ") :=
  ⟨rfl, by decide,
    ((C6_authenticate_caching ⟨none, none⟩ "  tok  " LoginOutcome.failure
        LoginOutcome.failure true true).2.2.1 rfl (by decide)).1,
    ((C6_authenticate_caching ⟨none, none⟩ "  tok  " LoginOutcome.failure
        LoginOutcome.failure true true).2.2.1 rfl (by decide)).2.2⟩

/-- C7: `logout` is total (the embedding returns a plain state, since
a `RequestException` from the remote call is caught) and its result does
not depend on the network outcome at all; with a token present it always
clears the in-memory token, clears the persisted token whenever the
storage unlink succeeds, and issues one network call; with no token it is
a no-op that issues no network call. -/
theorem C7_logout_always_clears (s : AuthState) (net : LogoutOutcome)
    (clearOk : Bool) :
    (AuthManager.logout s LogoutOutcome.failure clearOk
        = AuthManager.logout s LogoutOutcome.success clearOk) ∧
    (tokenTruthy s.token = true →
      (AuthManager.logout s net clearOk).1.token = none ∧
      (clearOk = true → (AuthManager.logout s net clearOk).1.stored = none) ∧
      (AuthManager.logout s net clearOk).2 = 1) ∧
    (tokenTruthy s.token = false →
      AuthManager.logout s net clearOk = (s, 0)) := by
  refine ⟨rfl, ?_, ?_⟩
  · intro ht
    unfold AuthManager.logout
    rw [if_neg (by simp [ht])]
    refine ⟨rfl, ?_, rfl⟩
    intro hc
    simp [hc]
  · intro ht
    unfold AuthManager.logout
    rw [if_pos (by simp [ht])]

/-- Witness for C7: a session holding token `"t"` in memory and on disk,
logged out while the remote logout call fails. -/
theorem C7_logout_always_clears_witness :
    tokenTruthy (⟨some "t", some "t"⟩ : AuthState).token = true ∧
    (AuthManager.logout ⟨some "t", some "t"⟩ LogoutOutcome.failure true).1.token
      = none ∧
    (AuthManager.logout ⟨some "t", some "t"⟩ LogoutOutcome.failure true).1.stored
      = none :=
  ⟨by decide,
    ((C7_logout_always_clears ⟨some "t", some "t"⟩ LogoutOutcome.failure true).2.1
      (by decide)).1,
    ((C7_logout_always_clears ⟨some "t", some "t"⟩ LogoutOutcome.failure true).2.1
      (by decide)).2.1 rfl⟩

/-- C10: Whenever `authenticate` raises — a transport failure of the
login call or the empty-token `ValueError` — the session state (in-memory
token and persisted token) is exactly what it was before the call. -/
theorem C10_authenticate_failure_preserves_state (s : AuthState) (force : Bool)
    (net : LoginOutcome) (saveOk : Bool) (e : PyError)
    (h : (AuthManager.authenticate s force net saveOk).1 = Except.error e) :
    (AuthManager.authenticate s force net saveOk).2.1 = s := by
  unfold AuthManager.authenticate at h ⊢
  by_cases hc : tokenTruthy s.token = true ∧ ¬force = true
  · rw [if_pos hc] at h
    simp at h
  · rw [if_neg hc] at h ⊢
    cases net with
    | failure => rfl
    | response t =>
      simp only [] at h ⊢
      by_cases hemp : pyStrip t = ""
      · rw [if_pos hemp]
      · rw [if_neg hemp] at h
        simp at h

/-- Witness for C10: authenticating a fresh session while the login call
raises a transport error leaves the state exactly `⟨none, none⟩`. -/
theorem C10_authenticate_failure_preserves_state_witness :
    (AuthManager.authenticate ⟨none, none⟩ false LoginOutcome.failure true).1
      = Except.error PyError.requestException ∧
    (AuthManager.authenticate ⟨none, none⟩ false LoginOutcome.failure true).2.1
      = ⟨none, none⟩ :=
  ⟨rfl, C10_authenticate_failure_preserves_state ⟨none, none⟩ false
    LoginOutcome.failure true PyError.requestException rfl⟩

/-- C8: Column-catalog parsing: an input detected as JSON (the
Content-Type contains "json" case-insensitively, or the stripped body
starts with a brace) whose JSON parse fails raises the JSON-specific
parse error carrying the first 500 characters of the offending text; any
other input whose (BOM-stripped, whitespace-stripped) body is non-empty
and fails XML parsing raises the XML-specific parse error carrying the
first 500 characters of the processed text; the two error kinds are
distinct; and a body that strips to the empty string in the XML path
yields the well-formed empty catalog `[]`, so malformed input (an error)
is always distinguished from an empty catalog (an `ok` result). -/
theorem C8_parse_failures
    (jsonLoads : String → Option (List (String × ColInfo)))
    (xmlParse : String → Option (List XmlColumn))
    (content content_type : String) :
    ((pyContains (pyLower content_type) "json"
        || pyStartsWith (pyStrip content) "\x7b") = true →
      jsonLoads content = none →
      parse_columns jsonLoads xmlParse content content_type
        = Except.error ⟨ParseKind.json, pySlice content 500⟩) ∧
    ((pyContains (pyLower content_type) "json"
        || pyStartsWith (pyStrip content) "\x7b") = false →
      (pyStrip (if pyStartsWith content "\uFEFF"
          then pyDropOne content else content) ≠ "" →
        xmlParse (pyStrip (if pyStartsWith content "\uFEFF"
            then pyDropOne content else content)) = none →
        parse_columns jsonLoads xmlParse content content_type
          = Except.error ⟨ParseKind.xml,
              pySlice (pyStrip (if pyStartsWith content "\uFEFF"
                then pyDropOne content else content)) 500⟩) ∧
      (pyStrip (if pyStartsWith content "\uFEFF"
          then pyDropOne content else content) = "" →
        parse_columns jsonLoads xmlParse content content_type
          = Except.ok [])) ∧
    ParseKind.json ≠ ParseKind.xml := by
  refine ⟨?_, ?_, by decide⟩
  · intro hdet hjson
    unfold parse_columns parse_columns_json
    rw [if_pos hdet, hjson]
  · intro hdet
    constructor
    · intro hne hxml
      unfold parse_columns parse_columns_xml
      rw [if_neg (by simp [hdet])]
      simp only []
      rw [if_neg hne, hxml]
    · intro hempty
      unfold parse_columns parse_columns_xml
      rw [if_neg (by simp [hdet])]
      simp only []
      rw [if_pos hempty]

/-- Witness for C8: a declared-JSON payload `"xx"` that fails JSON
parsing, under a parser oracle that rejects every input. -/
theorem C8_parse_failures_witness :
    (pyContains (pyLower "application/json") "json"
        || pyStartsWith (pyStrip "xx") "\x7b") = true ∧
    parse_columns (fun _ => none) (fun _ => none) "xx" "application/json"
      = Except.error ⟨ParseKind.json, pySlice "xx" 500⟩ :=
  ⟨by decide,
    (C8_parse_failures (fun _ => none) (fun _ => none) "xx"
      "application/json").1 (by decide) rfl⟩

/-- C9 counterexample: A storage file whose content is well-formed
JSON but not an object — here the array `[1, 2]` — makes
`TokenStorage.load` raise an `AttributeError` (`data.get` does not exist
on a list, and `AttributeError` is not in the caught exception tuple
`(OSError, json.JSONDecodeError)`), rather than returning the empty
result, so the claim "never raises" is false as stated. -/
theorem C9_load_nonobject_raises :
    TokenStorage.load (StorageFile.parsed (PyVal.arr [PyVal.num 1, PyVal.num 2]))
      = Except.error PyError.attributeError ∧
    TokenStorage.load (StorageFile.parsed (PyVal.arr [PyVal.num 1, PyVal.num 2]))
      ≠ Except.ok none :=
  ⟨rfl, fun hcontra => by simp [TokenStorage.load] at hcontra⟩

/-- C9 amended: `TokenStorage.load` returns the empty result without
raising for a missing file, an unreadable file (`OSError`), and a file
whose content fails JSON parsing (`JSONDecodeError`); for a parsed JSON
object it returns the `"token"` entry when truthy and the empty result
otherwise; but for a file whose content parses to a non-object JSON
value it raises an `AttributeError` instead of returning empty. -/
theorem C9_load_amended (f : StorageFile) :
    (f = StorageFile.missing ∨ f = StorageFile.ioError ∨ f = StorageFile.parseError →
      TokenStorage.load f = Except.ok none) ∧
    (∀ kvs : List (String × PyVal), f = StorageFile.parsed (PyVal.obj kvs) →
      (pyTruthy (dictGet kvs "token") = false →
        TokenStorage.load f = Except.ok none) ∧
      (pyTruthy (dictGet kvs "token") = true →
        TokenStorage.load f = Except.ok (some (dictGet kvs "token")))) ∧
    (∀ v : PyVal, f = StorageFile.parsed v → (∀ kvs, v ≠ PyVal.obj kvs) →
      TokenStorage.load f = Except.error PyError.attributeError) := by
  refine ⟨?_, ?_, ?_⟩
  · rintro (rfl | rfl | rfl) <;> rfl
  · rintro kvs rfl
    constructor
    · intro hfalse
      unfold TokenStorage.load
      dsimp only
      rw [if_neg (by simp [hfalse])]
    · intro htrue
      unfold TokenStorage.load
      dsimp only
      rw [if_pos htrue]
  · rintro v rfl hno
    unfold TokenStorage.load
    cases v with
    | null => rfl
    | bool b => rfl
    | num n => rfl
    | str t => rfl
    | arr l => rfl
    | obj kvs => exact absurd rfl (hno kvs)

/-- Witness for C9 (amended) at concrete storage states: a missing file
and a well-formed record `{"token": "abc", "created_at": "2026-01-01"}`. -/
theorem C9_load_amended_witness :
    TokenStorage.load StorageFile.missing = Except.ok none ∧
    pyTruthy (dictGet [("token", PyVal.str "abc"),
        ("created_at", PyVal.str "2026-01-01")] "token") = true ∧
    TokenStorage.load (StorageFile.parsed (PyVal.obj
        [("token", PyVal.str "abc"), ("created_at", PyVal.str "2026-01-01")]))
      = Except.ok (some (dictGet [("token", PyVal.str "abc"),
          ("created_at", PyVal.str "2026-01-01")] "token")) :=
  ⟨(C9_load_amended StorageFile.missing).1 (Or.inl rfl),
    rfl,
    ((C9_load_amended (StorageFile.parsed (PyVal.obj
        [("token", PyVal.str "abc"), ("created_at", PyVal.str "2026-01-01")]))).2.1
      [("token", PyVal.str "abc"), ("created_at", PyVal.str "2026-01-01")] rfl).2
      rfl⟩
